import Mathlib

/-!
Verification of the Pub/Sub subscription client
(`src/google-cloud/src/pubsub/subscription.rs`).

Shallow embedding of the subscription delivery engine: the buffered
batch-pull loop `receive_with_options`, the envelope-to-message
translation it performs, the streaming-pull wrappers of
`pull_streaming`, and the `id` derivation.  Machine integers are
modelled as `Int` with explicit wrapping where the source casts
(`nanos as u32`); the fallible `unwrap`s of the source are modelled by
`Option`, with `none` standing for a panic; the remote service is
modelled as an explicit sequence of pull results consumed by the loop.
-/

set_option autoImplicit false

namespace GcPubsub

/-- Wire-level protobuf timestamp (`seconds` is an `i64`, `nanos` an `i32`). -/
structure Timestamp where
  seconds : Int
  nanos : Int
  deriving Repr, DecidableEq

/-- The inner Pub/Sub message of an envelope (`api::PubsubMessage`):
payload bytes, broker message id, attributes, optional publish timestamp. -/
structure PubsubMessage where
  data : List Nat
  message_id : String
  attributes : List (String × String)
  publish_time : Option Timestamp
  deriving Repr, DecidableEq

/-- A wire-level envelope (`api::ReceivedMessage`): an ack id plus an
optional inner message. -/
structure ReceivedMessage where
  ack_id : String
  message : Option PubsubMessage
  deriving Repr, DecidableEq

/-- The application-facing `Message` produced by translation.  The
`client` field of the source is transport plumbing and is not part of
the logical state; `publish_time` is the single normalized timestamp
produced by `chrono::NaiveDateTime::from_timestamp(seconds, nanos as
u32)`, recorded here as total nanoseconds since the epoch. -/
structure Message where
  subscription_name : String
  data : List Nat
  message_id : String
  ack_id : String
  attributes : List (String × String)
  publish_time : Int
  deriving Repr, DecidableEq

/-- The `as u32` cast of the source (`timestamp.nanos as u32`): wraps an
`i32` value into `[0, 2^32)`. -/
def u32cast (n : Int) : Int :=
  n % 4294967296

/-- Translation of one envelope into a `Message`, as performed inline in
`receive_with_options` (lines 116-130) and `pull_streaming` (lines
209-223): `handle.message.unwrap()`, `message.publish_time.unwrap()`,
then field-by-field copy with the timestamp combined into one calendar
timestamp.  `none` models the panic of an `unwrap` on `None`. -/
def translate (subName : String) (handle : ReceivedMessage) : Option Message :=
  match handle.message with
  | none => none
  | some msg =>
    match msg.publish_time with
    | none => none
    | some timestamp =>
      some
        { subscription_name := subName
          data := msg.data
          message_id := msg.message_id
          ack_id := handle.ack_id
          attributes := msg.attributes
          publish_time := timestamp.seconds * 1000000000 + u32cast timestamp.nanos }

/-- The spec's well-formedness invariant on envelopes, stated from the
spec's words: the inner message and its publish timestamp are present. -/
def wellFormedRM (handle : ReceivedMessage) : Bool :=
  match handle.message with
  | none => false
  | some msg => msg.publish_time.isSome

/-- Per-call pull options (`ReceiveOptions`). -/
structure ReceiveOptions where
  return_immediately : Bool
  max_messages : Int
  deriving Repr, DecidableEq

/-- `Default for ReceiveOptions`: blocking retrieval, one message per pull. -/
def defaultReceiveOptions : ReceiveOptions :=
  { return_immediately := false, max_messages := 1 }

/-- The result of one `pull` RPC as seen by the loop: either a batch of
envelopes (`Ok(response.received_messages)`) or an error, whose content
the loop never inspects. -/
inductive PullResult where
  | ok : List ReceivedMessage → PullResult
  | err : PullResult
  deriving Repr, DecidableEq

/-- Outcome of one call to `receive_with_options` against a finite
script of pull results.  `msg m buf pulls` is `break Some(message)` with
the remaining buffer and unconsumed pull script; `eos buf pulls` is
`break None`; `panicked` is a panic of an `unwrap` inside the loop;
`pending` means the finite script was exhausted while the loop was
about to issue yet another pull (the real loop would keep looping). -/
inductive ReceiveOutcome where
  | msg : Message → List ReceivedMessage → List PullResult → ReceiveOutcome
  | eos : List ReceivedMessage → List PullResult → ReceiveOutcome
  | panicked : ReceiveOutcome
  | pending : ReceiveOutcome
  deriving Repr, DecidableEq

/-- The loop of `receive_with_options` (lines 114-139).  Each iteration
pops the front of the buffer if non-empty (translating and returning),
otherwise consumes the next scripted pull result: an error is ignored
and the loop retries; an empty successful batch under
`return_immediately` breaks with `None`; otherwise the whole batch is
appended to the (empty) buffer and the loop continues. -/
def receiveWithOptions (opts : ReceiveOptions) (subName : String) :
    List ReceivedMessage → List PullResult → ReceiveOutcome
  | h :: rest, pulls =>
    match translate subName h with
    | some m => .msg m rest pulls
    | none => .panicked
  | [], [] => .pending
  | [], p :: ps =>
    match p with
    | .err => receiveWithOptions opts subName [] ps
    | .ok messages =>
      if messages.isEmpty && opts.return_immediately then .eos [] ps
      else receiveWithOptions opts subName ([] ++ messages) ps

/-- Repeatedly call `receiveWithOptions`, collecting the returned
messages in order, stopping after `n` deliveries or at the first
non-message outcome. -/
def drain (opts : ReceiveOptions) (subName : String) :
    Nat → List ReceivedMessage → List PullResult → List Message
  | 0, _, _ => []
  | n + 1, buf, pulls =>
    match receiveWithOptions opts subName buf pulls with
    | .msg m buf2 pulls2 => m :: drain opts subName n buf2 pulls2
    | _ => []

/-- Options carried by one outbound control frame of a streaming pull
(`ReceiveStreamOptions`).  Note the type has no subscription field. -/
structure ReceiveStreamOptions where
  ack_ids : List String
  modify_deadline_ack_ids : List String
  modify_deadline_seconds : List Int
  stream_ack_deadline_seconds : Int
  deriving Repr, DecidableEq

/-- A wire-level outbound frame (`api::StreamingPullRequest`). -/
structure StreamingPullRequest where
  subscription : String
  ack_ids : List String
  modify_deadline_seconds : List Int
  modify_deadline_ack_ids : List String
  stream_ack_deadline_seconds : Int
  deriving Repr, DecidableEq

/-- The initial control frame built by `pull_streaming` (lines 179-185):
the subscription's full name together with the options' fields. -/
def initialStreamingPullRequest (subName : String) (opts : ReceiveStreamOptions) :
    StreamingPullRequest :=
  { subscription := subName
    ack_ids := opts.ack_ids
    modify_deadline_seconds := opts.modify_deadline_seconds
    modify_deadline_ack_ids := opts.modify_deadline_ack_ids
    stream_ack_deadline_seconds := opts.stream_ack_deadline_seconds }

/-- The adapter installed on the outbound sink by `sender.with` (lines
192-200): each subsequent caller-submitted frame is rebuilt with the
subscription field empty. -/
def clearSubscription (opts : ReceiveStreamOptions) : StreamingPullRequest :=
  { subscription := ""
    ack_ids := opts.ack_ids
    modify_deadline_seconds := opts.modify_deadline_seconds
    modify_deadline_ack_ids := opts.modify_deadline_ack_ids
    stream_ack_deadline_seconds := opts.stream_ack_deadline_seconds }

/-- The frames actually transmitted when a sequence of frames is
submitted through the wrapped sink, in submission order. -/
def sinkTransmit (frames : List ReceiveStreamOptions) : List StreamingPullRequest :=
  frames.map clearSubscription

/-- Element-wise translation of one inbound batch, as performed by the
`map_ok` closure of `pull_streaming` (lines 206-226): the batch is
mapped over `translate`; a failing `unwrap` inside the map is a panic,
modelled by `none`. -/
def translateBatch (subName : String) : List ReceivedMessage → Option (List Message)
  | [] => some []
  | h :: rest =>
    match translate subName h with
    | none => none
    | some m =>
      match translateBatch subName rest with
      | none => none
      | some ms => some (m :: ms)

/-- One item of the wrapped inbound stream as seen by the consumer. -/
inductive InboundItem where
  | batch : List Message → InboundItem
  | err : String → InboundItem
  | panicked : InboundItem
  deriving Repr, DecidableEq

/-- The wrapping of one raw inbound stream item by `pull_streaming`
(lines 205-227): `map_ok` translates the batch element-wise (panicking
on a malformed envelope), `map_err` converts the transport error
(modelled as carrying the error through). -/
def wrapInboundItem (subName : String) (raw : Except String (List ReceivedMessage)) :
    InboundItem :=
  match raw with
  | .error e => .err e
  | .ok batch =>
    match translateBatch subName batch with
    | some msgs => .batch msgs
    | none => .panicked

/-- `str::rsplit` on a single separator character, modelled on character
lists: the segments of `splitOnChar` in reverse order. -/
def splitOnChar (c : Char) : List Char → List (List Char)
  | [] => [[]]
  | x :: xs =>
    match splitOnChar c xs with
    | [] => [[]]
    | y :: ys => if x = c then [] :: y :: ys else (x :: y) :: ys

/-- `self.name.rsplit('/')` as a list of segments, last segment first. -/
def rsplitChar (c : Char) (s : List Char) : List (List Char) :=
  (splitOnChar c s).reverse

/-- `Subscription::id` (lines 104-106):
`self.name.rsplit('/').next().unwrap()`.  `none` models the panic of
the `unwrap` when the iterator were empty. -/
def idOf (name : String) : Option String :=
  ((rsplitChar '/' name.data).head?).map (fun l => String.mk l)

/-- The logical state of a `Subscription` (lines 87-92): its
fully-qualified name and its private buffer of undelivered envelopes.
The `client` field is transport plumbing and carries no logical state. -/
structure Subscription where
  name : String
  buffer : List ReceivedMessage
  deriving Repr, DecidableEq

/-- `#[derive(Clone)]` on `Subscription`: a field-by-field copy; the
`VecDeque` buffer is deep-copied, so the clone's buffer is an
independent queue with the same contents. -/
def Subscription.clone (s : Subscription) : Subscription :=
  { name := s.name, buffer := s.buffer }

/-- `receive_with_options` invoked on a subscription state: the loop of
`receiveWithOptions` run on the subscription's own buffer. -/
def Subscription.receive (s : Subscription) (opts : ReceiveOptions)
    (pulls : List PullResult) : ReceiveOutcome :=
  receiveWithOptions opts s.name s.buffer pulls

/-! ### Sample concrete values used by witnesses -/

/-- A concrete well-formed timestamp. -/
def sampleTs : Timestamp := { seconds := 1000, nanos := 500000000 }

/-- A concrete well-formed inner message. -/
def sampleMsg : PubsubMessage :=
  { data := [1, 2], message_id := "m1", attributes := [("k", "v")],
    publish_time := some sampleTs }

/-- A concrete well-formed envelope. -/
def sampleEnv : ReceivedMessage := { ack_id := "ack1", message := some sampleMsg }

/-- A second concrete well-formed envelope. -/
def sampleEnv2 : ReceivedMessage :=
  { ack_id := "ack2",
    message := some { data := [3], message_id := "m2", attributes := [],
                      publish_time := some { seconds := 7, nanos := 0 } } }

/-- The concrete envelope of the spec's timestamp example
(seconds=1000, nanos=500000000). -/
def timestampExampleEnv : ReceivedMessage :=
  { ack_id := "a",
    message := some { data := [], message_id := "m", attributes := [],
                      publish_time := some { seconds := 1000, nanos := 500000000 } } }

/-- A concrete streaming-options frame. -/
def sampleStreamOpts : ReceiveStreamOptions :=
  { ack_ids := ["a1"], modify_deadline_ack_ids := ["a2"],
    modify_deadline_seconds := [30], stream_ack_deadline_seconds := 60 }

/-! ### Helper lemmas -/

/-- Translation succeeds exactly on well-formed envelopes. -/
lemma translate_isSome (subName : String) (handle : ReceivedMessage) :
    (translate subName handle).isSome = wellFormedRM handle := by
  rcases handle with ⟨ack, msg⟩
  cases msg with
  | none => simp [translate, wellFormedRM]
  | some m =>
    cases hpt : m.publish_time with
    | none => simp [translate, wellFormedRM, hpt]
    | some ts => simp [translate, wellFormedRM, hpt]

/-- The loop pops a translated head without touching the pull script. -/
lemma receive_cons (opts : ReceiveOptions) (subName : String)
    (h : ReceivedMessage) (rest : List ReceivedMessage) (pulls : List PullResult)
    (m : Message) (hm : translate subName h = some m) :
    receiveWithOptions opts subName (h :: rest) pulls = .msg m rest pulls := by
  simp [receiveWithOptions, hm]

/-- A failed pull is silently skipped and the loop retries on an
unchanged (empty) buffer. -/
lemma receive_err_cons (opts : ReceiveOptions) (subName : String)
    (ps : List PullResult) :
    receiveWithOptions opts subName [] (.err :: ps) =
      receiveWithOptions opts subName [] ps := by
  simp [receiveWithOptions]

/-- A successful pull that does not trigger end-of-stream appends its
whole batch to the (empty) buffer and the loop continues. -/
lemma receive_ok_cons (opts : ReceiveOptions) (subName : String)
    (batch : List ReceivedMessage) (ps : List PullResult)
    (hB : ¬(batch.isEmpty = true ∧ opts.return_immediately = true)) :
    receiveWithOptions opts subName [] (.ok batch :: ps) =
      receiveWithOptions opts subName ([] ++ batch) ps := by
  have hcond : (batch.isEmpty && opts.return_immediately) = false := by
    cases hb : batch.isEmpty <;> cases hr : opts.return_immediately <;>
      simp_all
  simp [receiveWithOptions, hcond]

/-- An empty successful pull under `return_immediately` breaks the loop
with `None`, leaving the rest of the pull script unconsumed. -/
lemma receive_ok_empty_ri (opts : ReceiveOptions) (subName : String)
    (ps : List PullResult) (hri : opts.return_immediately = true) :
    receiveWithOptions opts subName [] (.ok [] :: ps) = .eos [] ps := by
  simp [receiveWithOptions, hri]

/-- In blocking mode (`return_immediately = false`) the loop never
breaks with `None`. -/
lemma receive_no_eos_of_blocking (opts : ReceiveOptions) (subName : String)
    (hri : opts.return_immediately = false) :
    ∀ (pulls : List PullResult) (buf buf2 : List ReceivedMessage)
      (ps : List PullResult),
      receiveWithOptions opts subName buf pulls ≠ .eos buf2 ps := by
  intro pulls
  induction pulls with
  | nil =>
    intro buf buf2 ps
    cases buf with
    | nil => simp [receiveWithOptions]
    | cons h rest =>
      cases htr : translate subName h <;> simp [receiveWithOptions, htr]
  | cons p ps ih =>
    intro buf buf2 ps2
    cases buf with
    | cons h rest =>
      cases htr : translate subName h <;> simp [receiveWithOptions, htr]
    | nil =>
      cases p with
      | err =>
        rw [receive_err_cons]
        exact ih [] buf2 ps2
      | ok batch =>
        rw [receive_ok_cons opts subName batch ps (by simp [hri])]
        exact ih ([] ++ batch) buf2 ps2

/-- If the loop breaks with `None`, then `return_immediately` was set
and one of the consumed pulls successfully returned zero envelopes. -/
lemma receive_eos_imp (opts : ReceiveOptions) (subName : String) :
    ∀ (pulls : List PullResult) (buf buf2 : List ReceivedMessage)
      (ps : List PullResult),
      receiveWithOptions opts subName buf pulls = .eos buf2 ps →
      opts.return_immediately = true ∧ PullResult.ok [] ∈ pulls := by
  intro pulls
  induction pulls with
  | nil =>
    intro buf buf2 ps hE
    exfalso
    cases buf with
    | nil => simp [receiveWithOptions] at hE
    | cons h rest =>
      cases htr : translate subName h <;> simp [receiveWithOptions, htr] at hE
  | cons p ps ih =>
    intro buf buf2 ps2 hE
    cases buf with
    | cons h rest =>
      exfalso
      cases htr : translate subName h <;> simp [receiveWithOptions, htr] at hE
    | nil =>
      cases p with
      | err =>
        rw [receive_err_cons] at hE
        obtain ⟨h1, h2⟩ := ih [] buf2 ps2 hE
        exact ⟨h1, List.mem_cons_of_mem _ h2⟩
      | ok batch =>
        by_cases hc : batch.isEmpty = true ∧ opts.return_immediately = true
        · have hbatch : batch = [] := List.isEmpty_iff.mp hc.1
          exact ⟨hc.2, by simp [hbatch]⟩
        · rw [receive_ok_cons opts subName batch ps hc] at hE
          obtain ⟨h1, h2⟩ := ih ([] ++ batch) buf2 ps2 hE
          exact ⟨h1, List.mem_cons_of_mem _ h2⟩

/-! ### Claim theorems -/

/-- C2: whenever the buffer is non-empty, `receive_with_options` (with
any options) pops the oldest buffered envelope, translates it and
returns it immediately; the pull script is returned untouched, so no
pull request is issued. -/
theorem nonempty_buffer_receives_without_pull (opts : ReceiveOptions)
    (subName : String) (h : ReceivedMessage) (rest : List ReceivedMessage)
    (pulls : List PullResult) (m : Message)
    (hm : translate subName h = some m) :
    receiveWithOptions opts subName (h :: rest) pulls = .msg m rest pulls :=
  receive_cons opts subName h rest pulls m hm

/-- Witness for C2 at a concrete buffered envelope: the pull script
(a single error result) is left unconsumed. -/
theorem nonempty_buffer_receives_without_pull_witness :
    receiveWithOptions defaultReceiveOptions "s" [sampleEnv] [.err] =
      .msg { subscription_name := "s", data := [1, 2], message_id := "m1",
             ack_id := "ack1", attributes := [("k", "v")],
             publish_time := 1000500000000 } [] [.err] :=
  nonempty_buffer_receives_without_pull defaultReceiveOptions "s" sampleEnv []
    [.err] _ (by decide)

/-- C4: a pull error is silently ignored and the loop retries with the
buffer unchanged; a successful pull appends its whole batch to the
buffer at once (the loop continues from the buffer `[] ++ batch`),
never a partial append. -/
theorem pull_error_ignored_and_batch_atomic (opts : ReceiveOptions)
    (subName : String) :
    (∀ ps : List PullResult,
        receiveWithOptions opts subName [] (.err :: ps) =
          receiveWithOptions opts subName [] ps)
    ∧ (∀ (batch : List ReceivedMessage) (ps : List PullResult),
        ¬(batch.isEmpty = true ∧ opts.return_immediately = true) →
        receiveWithOptions opts subName [] (.ok batch :: ps) =
          receiveWithOptions opts subName ([] ++ batch) ps) :=
  ⟨fun ps => receive_err_cons opts subName ps,
   fun batch ps hB => receive_ok_cons opts subName batch ps hB⟩

/-- Witness for C4: a concrete one-envelope batch is appended whole. -/
theorem pull_error_ignored_and_batch_atomic_witness :
    receiveWithOptions defaultReceiveOptions "s" [] [.ok [sampleEnv]] =
      receiveWithOptions defaultReceiveOptions "s" ([] ++ [sampleEnv]) [] :=
  (pull_error_ignored_and_batch_atomic defaultReceiveOptions "s").2
    [sampleEnv] [] (by decide)

/-- C5: translating a well-formed envelope copies the ack id, payload,
message id and attributes unchanged and combines seconds and nanos into
one timestamp (total nanoseconds since epoch); the `as u32` cast is the
identity on in-range nanos; concretely seconds=1000, nanos=500000000
gives 1000500000000 ns, i.e. 1000.5 seconds since the epoch. -/
theorem translate_copies_fields_combines_timestamp :
    (∀ (subName ack mid : String) (data : List Nat)
        (attrs : List (String × String)) (secs nanos : Int),
        translate subName
            { ack_id := ack,
              message := some { data := data, message_id := mid,
                                attributes := attrs,
                                publish_time := some { seconds := secs, nanos := nanos } } } =
          some { subscription_name := subName, data := data, message_id := mid,
                 ack_id := ack, attributes := attrs,
                 publish_time := secs * 1000000000 + u32cast nanos })
    ∧ (∀ nanos : Int, 0 ≤ nanos → nanos < 4294967296 → u32cast nanos = nanos)
    ∧ (translate "s" timestampExampleEnv).map
        Message.publish_time = some 1000500000000 := by
  refine ⟨fun subName ack mid data attrs secs nanos => rfl,
          fun nanos h0 hlt => Int.emod_eq_of_lt h0 hlt, by decide⟩

/-- Witness for C5: the in-range cast clause at nanos = 500000000. -/
theorem translate_copies_fields_combines_timestamp_witness :
    u32cast 500000000 = 500000000 :=
  translate_copies_fields_combines_timestamp.2.1 500000000 (by decide) (by decide)

/-- C6: translation panics (models the `unwrap`s) exactly when the inner
message or the publish timestamp is absent; under the well-formedness
precondition the panic branch is unreachable and translation is total. -/
theorem translate_panics_iff_malformed (subName : String)
    (handle : ReceivedMessage) :
    (translate subName handle = none ↔
      handle.message = none ∨
        ∃ msg, handle.message = some msg ∧ msg.publish_time = none)
    ∧ (wellFormedRM handle = true → (translate subName handle).isSome = true) := by
  constructor
  · rcases handle with ⟨ack, msg⟩
    cases msg with
    | none => simp [translate]
    | some m =>
      cases hpt : m.publish_time with
      | none => simp [translate, hpt]
      | some ts => simp [translate, hpt]
  · intro hwf
    rw [translate_isSome]
    exact hwf

/-- Witness for C6 at a concrete well-formed envelope. -/
theorem translate_panics_iff_malformed_witness :
    (translate "s" sampleEnv).isSome = true :=
  (translate_panics_iff_malformed "s" sampleEnv).2 (by decide)

/-- C7: the initial streaming control frame carries the subscription's
full name and the options' ack ids, modify-deadline ids and seconds and
stream ack deadline; every frame later submitted through the wrapped
sink is transmitted with its subscription field empty. -/
theorem streaming_initial_frame_then_cleared (subName : String)
    (opts : ReceiveStreamOptions) :
    (initialStreamingPullRequest subName opts).subscription = subName
    ∧ (initialStreamingPullRequest subName opts).ack_ids = opts.ack_ids
    ∧ (initialStreamingPullRequest subName opts).modify_deadline_ack_ids =
        opts.modify_deadline_ack_ids
    ∧ (initialStreamingPullRequest subName opts).modify_deadline_seconds =
        opts.modify_deadline_seconds
    ∧ (initialStreamingPullRequest subName opts).stream_ack_deadline_seconds =
        opts.stream_ack_deadline_seconds
    ∧ (∀ frames : List ReceiveStreamOptions,
        ∀ r ∈ sinkTransmit frames, r.subscription = "") := by
  refine ⟨rfl, rfl, rfl, rfl, rfl, fun frames r hr => ?_⟩
  simp only [sinkTransmit, List.mem_map] at hr
  obtain ⟨f, _, rfl⟩ := hr
  rfl

/-- Witness for C7: a concrete second frame is transmitted with the
subscription field empty. -/
theorem streaming_initial_frame_then_cleared_witness :
    (clearSubscription sampleStreamOpts).subscription = "" :=
  (streaming_initial_frame_then_cleared "s" sampleStreamOpts).2.2.2.2.2
    [sampleStreamOpts] (clearSubscription sampleStreamOpts)
    (by simp [sinkTransmit])

/-- C10: cloning a subscription copies its buffer: the clone receives
exactly the message the original would receive, and delivering from the
clone leaves the original's buffer unchanged (each clone can deliver
the buffered message once). -/
theorem clone_copies_buffer (s : Subscription) (opts : ReceiveOptions)
    (h : ReceivedMessage) (rest : List ReceivedMessage)
    (pulls : List PullResult) (m : Message)
    (hbuf : s.buffer = h :: rest) (hm : translate s.name h = some m) :
    s.clone.receive opts pulls = s.receive opts pulls
    ∧ s.clone.receive opts pulls = .msg m rest pulls
    ∧ s.clone.buffer = s.buffer
    ∧ s.buffer = h :: rest := by
  refine ⟨rfl, ?_, rfl, hbuf⟩
  unfold Subscription.receive Subscription.clone
  simp only [hbuf]
  exact receive_cons opts s.name h rest pulls m hm

/-- Witness for C10 at a concrete one-envelope buffer. -/
theorem clone_copies_buffer_witness :
    (Subscription.clone { name := "s", buffer := [sampleEnv] }).receive
        defaultReceiveOptions [] =
      Subscription.receive { name := "s", buffer := [sampleEnv] }
        defaultReceiveOptions [] :=
  (clone_copies_buffer { name := "s", buffer := [sampleEnv] }
    defaultReceiveOptions sampleEnv [] []
    { subscription_name := "s", data := [1, 2], message_id := "m1",
      ack_id := "ack1", attributes := [("k", "v")],
      publish_time := 1000500000000 } rfl (by decide)).1

/-- C3: `receive_with_options` returns end-of-stream (`None`) only when
`return_immediately` is set and a consumed pull successfully returned
zero envelopes; in blocking mode it never returns `None`; with
`return_immediately` set an empty pull returns `None` at once, leaving
later pulls unconsumed; and with the defaults an empty pull followed by
a one-envelope pull yields that envelope's message. -/
theorem receive_eos_characterization (subName : String) :
    (∀ (opts : ReceiveOptions) (buf : List ReceivedMessage)
        (pulls : List PullResult) (buf2 : List ReceivedMessage)
        (ps : List PullResult),
        opts.return_immediately = false →
        receiveWithOptions opts subName buf pulls ≠ .eos buf2 ps)
    ∧ (∀ (opts : ReceiveOptions) (buf : List ReceivedMessage)
        (pulls : List PullResult) (buf2 : List ReceivedMessage)
        (ps : List PullResult),
        receiveWithOptions opts subName buf pulls = .eos buf2 ps →
        opts.return_immediately = true ∧ PullResult.ok [] ∈ pulls)
    ∧ (∀ (opts : ReceiveOptions) (ps : List PullResult),
        opts.return_immediately = true →
        receiveWithOptions opts subName [] (.ok [] :: ps) = .eos [] ps)
    ∧ (∀ (env : ReceivedMessage) (m : Message),
        translate subName env = some m →
        receiveWithOptions defaultReceiveOptions subName []
            [.ok [], .ok [env]] = .msg m [] []) := by
  refine ⟨fun opts buf pulls buf2 ps hri =>
            receive_no_eos_of_blocking opts subName hri pulls buf buf2 ps,
          fun opts buf pulls buf2 ps hE =>
            receive_eos_imp opts subName pulls buf buf2 ps hE,
          fun opts ps hri => receive_ok_empty_ri opts subName ps hri,
          fun env m hm => ?_⟩
  rw [receive_ok_cons defaultReceiveOptions subName [] [.ok [env]] (by decide)]
  rw [show ([] ++ [] : List ReceivedMessage) = [] from rfl]
  rw [receive_ok_cons defaultReceiveOptions subName [env] [] (by simp)]
  exact receive_cons defaultReceiveOptions subName env [] [] m hm

/-- Witness for C3: with `return_immediately` set, a single empty pull
returns end-of-stream immediately. -/
theorem receive_eos_characterization_witness :
    receiveWithOptions { return_immediately := true, max_messages := 1 }
        "s" [] [.ok []] = .eos [] [] :=
  (receive_eos_characterization "s").2.2.1
    { return_immediately := true, max_messages := 1 } [] rfl

/-- Draining a well-formed buffer delivers its translations in order
before any pull is consumed. -/
lemma drain_buffer (opts : ReceiveOptions) (subName : String) :
    ∀ (buf : List ReceivedMessage) (n : Nat) (pulls : List PullResult),
      (∀ h ∈ buf, wellFormedRM h = true) →
      drain opts subName (buf.length + n) buf pulls =
        buf.filterMap (translate subName) ++ drain opts subName n [] pulls := by
  intro buf
  induction buf with
  | nil => intro n pulls _; simp
  | cons h rest ih =>
    intro n pulls hwf
    have hs : (translate subName h).isSome = true := by
      rw [translate_isSome]
      exact hwf h (List.mem_cons_self h rest)
    obtain ⟨m, hm⟩ := Option.isSome_iff_exists.mp hs
    have hlen : (h :: rest).length + n = (rest.length + n) + 1 := by
      simp [List.length_cons]
      omega
    rw [hlen]
    simp only [drain]
    rw [receive_cons opts subName h rest pulls m hm]
    simp only [ih n pulls (fun x hx => hwf x (List.mem_cons_of_mem _ hx))]
    simp [List.filterMap_cons, hm]

/-- A successful pull that does not end the stream leaves the drained
message sequence unchanged: it only moves the batch into the buffer. -/
lemma drain_ok_cons (opts : ReceiveOptions) (subName : String)
    (batch : List ReceivedMessage) (ps : List PullResult)
    (hB : ¬(batch.isEmpty = true ∧ opts.return_immediately = true)) :
    ∀ n : Nat, drain opts subName n [] (.ok batch :: ps) =
      drain opts subName n batch ps := by
  intro n
  cases n with
  | zero => rfl
  | succ k =>
    simp only [drain]
    rw [receive_ok_cons opts subName batch ps hB]
    rw [List.nil_append]

/-- C1: for every script of successful pulls returning batches B1..Bn
of well-formed envelopes (no batch empty, unless in blocking mode),
repeatedly receiving from an initially empty buffer yields exactly the
translations of the flattened batches, in order. -/
theorem receive_fifo_across_batches (opts : ReceiveOptions) (subName : String)
    (batches : List (List ReceivedMessage))
    (hwf : ∀ B ∈ batches, ∀ h ∈ B, wellFormedRM h = true)
    (hopts : opts.return_immediately = false ∨ [] ∉ batches) :
    drain opts subName batches.flatten.length []
        (batches.map PullResult.ok) =
      batches.flatten.filterMap (translate subName) := by
  induction batches with
  | nil => rfl
  | cons B Bs ih =>
    have hwfB : ∀ h ∈ B, wellFormedRM h = true :=
      hwf B (List.mem_cons_self B Bs)
    have hwfBs : ∀ B2 ∈ Bs, ∀ h ∈ B2, wellFormedRM h = true :=
      fun B2 hB2 => hwf B2 (List.mem_cons_of_mem _ hB2)
    have hoptsBs : opts.return_immediately = false ∨ [] ∉ Bs := by
      rcases hopts with h | h
      · exact Or.inl h
      · exact Or.inr (fun hmem => h (List.mem_cons_of_mem _ hmem))
    by_cases hBnil : B = []
    · subst hBnil
      have hri : opts.return_immediately = false := by
        rcases hopts with h | h
        · exact h
        · exact absurd (List.mem_cons_self [] Bs) h
      simp only [List.flatten_cons, List.nil_append, List.map_cons]
      rw [drain_ok_cons opts subName [] (Bs.map PullResult.ok) (by simp [hri])]
      exact ih hwfBs hoptsBs
    · have hBe : ¬(B.isEmpty = true ∧ opts.return_immediately = true) := by
        intro hand
        exact hBnil (List.isEmpty_iff.mp hand.1)
      simp only [List.flatten_cons, List.map_cons, List.length_append]
      rw [drain_ok_cons opts subName B (Bs.map PullResult.ok) hBe]
      rw [drain_buffer opts subName B (Bs.flatten.length) (Bs.map PullResult.ok) hwfB]
      rw [ih hwfBs hoptsBs]
      rw [List.filterMap_append]

/-- Witness for C1 at two concrete one-envelope batches. -/
theorem receive_fifo_across_batches_witness :
    drain defaultReceiveOptions "s" [[sampleEnv], [sampleEnv2]].flatten.length []
        ([[sampleEnv], [sampleEnv2]].map PullResult.ok) =
      [[sampleEnv], [sampleEnv2]].flatten.filterMap (translate "s") :=
  receive_fifo_across_batches defaultReceiveOptions "s"
    [[sampleEnv], [sampleEnv2]] (by decide) (Or.inl rfl)

/-- Element-wise translation of a batch of well-formed envelopes
succeeds, preserves order and preserves length. -/
lemma translateBatch_eq_filterMap (subName : String) :
    ∀ batch : List ReceivedMessage,
      (∀ h ∈ batch, wellFormedRM h = true) →
      translateBatch subName batch =
          some (batch.filterMap (translate subName))
        ∧ (batch.filterMap (translate subName)).length = batch.length := by
  intro batch
  induction batch with
  | nil => intro _; exact ⟨rfl, rfl⟩
  | cons h rest ih =>
    intro hwf
    have hs : (translate subName h).isSome = true := by
      rw [translate_isSome]
      exact hwf h (List.mem_cons_self h rest)
    obtain ⟨m, hm⟩ := Option.isSome_iff_exists.mp hs
    obtain ⟨ih1, ih2⟩ := ih (fun x hx => hwf x (List.mem_cons_of_mem _ hx))
    constructor
    · simp [translateBatch, hm, ih1, List.filterMap_cons]
    · simp [List.filterMap_cons, hm, ih2]

/-- C8 (amended): an inbound batch of n well-formed envelopes is
translated element-wise into exactly n messages, preserving order and
field values; a transport error propagates to the consumer as a stream
error; but a translation failure panics instead of becoming a stream
error (see the counterexample). -/
theorem streaming_batch_translation (subName e : String)
    (batch : List ReceivedMessage)
    (hwf : ∀ h ∈ batch, wellFormedRM h = true) :
    wrapInboundItem subName (.ok batch) =
        .batch (batch.filterMap (translate subName))
    ∧ (batch.filterMap (translate subName)).length = batch.length
    ∧ wrapInboundItem subName (.error e) = .err e := by
  obtain ⟨h1, h2⟩ := translateBatch_eq_filterMap subName batch hwf
  exact ⟨by simp [wrapInboundItem, h1], h2, rfl⟩

/-- Witness for C8 at a concrete three-envelope batch. -/
theorem streaming_batch_translation_witness :
    wrapInboundItem "s" (.ok [sampleEnv, sampleEnv2, timestampExampleEnv]) =
      .batch ([sampleEnv, sampleEnv2, timestampExampleEnv].filterMap
        (translate "s")) :=
  (streaming_batch_translation "s" "e"
    [sampleEnv, sampleEnv2, timestampExampleEnv] (by decide)).1

/-- Counterexample to C8 as stated: a batch containing an envelope with
no inner message makes the wrapped inbound stream panic; the item is
not delivered to the consumer as a stream error. -/
theorem streaming_translation_error_is_panic :
    wrapInboundItem "s" (.ok [{ ack_id := "a", message := none }]) = .panicked
    ∧ ¬∃ e : String,
        wrapInboundItem "s" (.ok [{ ack_id := "a", message := none }]) =
          .err e := by
  have h0 : wrapInboundItem "s" (.ok [{ ack_id := "a", message := none }]) =
      .panicked := by decide
  refine ⟨h0, ?_⟩
  rintro ⟨e, he⟩
  rw [h0] at he
  exact InboundItem.noConfusion he

/-- `splitOnChar` never yields an empty list of segments, so
`rsplit(..).next()` always finds an element. -/
lemma splitOnChar_ne_nil (c : Char) (s : List Char) : splitOnChar c s ≠ [] := by
  induction s with
  | nil => simp [splitOnChar]
  | cons x xs ih =>
    simp only [splitOnChar]
    cases hsp : splitOnChar c xs with
    | nil => exact absurd hsp ih
    | cons y ys => by_cases hx : x = c <;> simp [hx]

/-- Splitting a string that does not contain the separator yields the
string itself as the single segment. -/
lemma splitOnChar_not_mem (c : Char) (s : List Char) (h : c ∉ s) :
    splitOnChar c s = [s] := by
  induction s with
  | nil => rfl
  | cons x xs ih =>
    have hx : ¬x = c := fun he => h (he ▸ List.mem_cons_self x xs)
    have hxs : c ∉ xs := fun hm => h (List.mem_cons_of_mem _ hm)
    simp only [splitOnChar, ih hxs]
    simp [hx]

/-- A string containing the separator splits into at least two segments. -/
lemma two_le_splitOnChar_length (c : Char) (s : List Char) (h : c ∈ s) :
    2 ≤ (splitOnChar c s).length := by
  induction s with
  | nil => cases h
  | cons x xs ih =>
    simp only [splitOnChar]
    cases hsp : splitOnChar c xs with
    | nil => exact absurd hsp (splitOnChar_ne_nil c xs)
    | cons y ys =>
      by_cases hx : x = c
      · simp [hx]
      · have hm : c ∈ xs := by
          rcases List.mem_cons.mp h with h1 | h1
          · exact absurd h1.symm hx
          · exact h1
        have h2 := ih hm
        rw [hsp] at h2
        simp only [List.length_cons] at h2 ⊢
        simp [hx]
        omega

/-- The last segment of a split at the final separator is the part
after that separator. -/
lemma getLast?_splitOnChar_sep (c : Char) (b : List Char) :
    ∀ a : List Char,
      (splitOnChar c (a ++ c :: b)).getLast? = (splitOnChar c b).getLast? := by
  intro a
  induction a with
  | nil =>
    simp only [List.nil_append, splitOnChar]
    cases hsp : splitOnChar c b with
    | nil => exact absurd hsp (splitOnChar_ne_nil c b)
    | cons y ys => simp [List.getLast?_cons_cons]
  | cons x a ih =>
    simp only [List.cons_append, splitOnChar]
    cases hsp : splitOnChar c (a ++ c :: b) with
    | nil => exact absurd hsp (splitOnChar_ne_nil c (a ++ c :: b))
    | cons y ys =>
      have hlen := two_le_splitOnChar_length c (a ++ c :: b)
        (by simp)
      rw [hsp] at hlen
      rw [hsp] at ih
      cases ys with
      | nil => simp at hlen
      | cons z zs =>
        by_cases hx : x = c
        · simpa [hx, List.getLast?_cons_cons] using ih
        · simpa [hx, List.getLast?_cons_cons] using ih

/-- C9: on any name of the form `a ++ "/" ++ b` with `b` free of
separators, `id()` returns the final segment `b` without panicking;
concretely `id()` of `"projects/p/subscriptions/my-sub"` is
`"my-sub"`. -/
theorem id_final_segment (a b : List Char) (hb : '/' ∉ b) :
    idOf (String.mk (a ++ '/' :: b)) = some (String.mk b)
    ∧ idOf "projects/p/subscriptions/my-sub" = some "my-sub" := by
  constructor
  · show (((splitOnChar ('/') (a ++ '/' :: b)).reverse).head?).map
      (fun l => String.mk l) = some (String.mk b)
    rw [List.head?_reverse]
    rw [getLast?_splitOnChar_sep ('/') b a]
    rw [splitOnChar_not_mem ('/') b hb]
    rfl
  · decide

/-- Witness for C9 at a concrete two-segment name. -/
theorem id_final_segment_witness :
    idOf (String.mk (['p'] ++ '/' :: ['q'])) =
      some (String.mk ['q']) :=
  (id_final_segment ['p'] ['q'] (by decide)).1

end GcPubsub
